import Mathlib

/-
  Verification of the Number Verification & Retry Tracking Engine
  (src/bot.py) against its natural-language specification.

  Shallow embedding conventions:
  * Python strings are Lean `String` (character lists underneath).
  * Timestamps are natural numbers counted in hours, so that
    `datetime.now() + timedelta(hours=h)` becomes `now + h`.
    Every call to `datetime.now()` made while one batch item is
    processed is collapsed to one logical instant supplied by an
    explicit clock.
  * Python dicts with string keys are association lists where an
    update of an existing key replaces it in place and a fresh key
    is appended (the insertion-order behaviour of Python dicts);
    `len` is the list length.
  * The pluggable verification backend is an explicit function
    `String → ApiOutcome`; a Python exception raised by the backend
    is the `ApiOutcome.exn` outcome, caught by `check_number`.
  * File I/O (progress messages, csv writing) is modelled by the
    data handed to it, not by the side effect.
-/

/-- The whitespace test used by Python `str.strip()` restricted to the
ASCII whitespace characters. -/
def pyIsSpace (c : Char) : Bool :=
  c == ' ' || c == '\t' || c == '\n' || c == '\r' || c == '\x0b' || c == '\x0c'

/-- Python `phone.strip()` on the character list of the string. -/
def pyStrip (l : List Char) : List Char :=
  ((l.dropWhile pyIsSpace).reverse.dropWhile pyIsSpace).reverse

/-- The characters kept by the final comprehension of
`WhatsAppChecker.clean_phone_number` (src/bot.py:101): digits and the
plus sign. -/
def keepChar (c : Char) : Bool :=
  c.isDigit || c == '+'

/-- The prefix-rewriting chain of `clean_phone_number`
(src/bot.py:93-98): a leading trunk `0` becomes `+234`, a bare `234`
country code gains a `+`, and any string not starting with `+` gets
one prepended. -/
def prefixed (p : List Char) : List Char :=
  if p.take 1 = ['0'] then '+' :: '2' :: '3' :: '4' :: p.drop 1
  else if p.take 3 = ['2', '3', '4'] then '+' :: p
  else if p.take 1 = ['+'] then p
  else '+' :: p

/-- `WhatsAppChecker.clean_phone_number` (src/bot.py:88-104) on
character lists: strip, rewrite the prefix, keep only digits and `+`. -/
def cleanChars (l : List Char) : List Char :=
  (prefixed (pyStrip l)).filter keepChar

/-- `WhatsAppChecker.clean_phone_number` on strings.  For a string
argument the `except` branch of the source (returning `None`) is
unreachable, so the function is total. -/
def clean_phone_number (phone : String) : String :=
  ⟨cleanChars phone.toList⟩

/-- Outcome of one call to the verification backend: a returned status
string, or a raised exception. -/
inductive ApiOutcome
  | ok (status : String)
  | exn
deriving DecidableEq, Repr

/-- `WhatsAppChecker._check_with_api` (src/bot.py:106-139), the shipped
deterministic stub: the result is derived from the last character of
the number; `phone[-1]` on an empty string raises `IndexError`. -/
def stub_api (phone : String) : ApiOutcome :=
  match phone.toList.reverse with
  | [] => ApiOutcome.exn
  | c :: _ =>
    if c ∈ ['0', '2', '4', '6', '8'] then ApiOutcome.ok "on_whatsapp"
    else ApiOutcome.ok "not_on_whatsapp"

/-- A backend whose call always raises, used to exercise the
per-item error isolation of the batch loop. -/
def exnApi : String → ApiOutcome :=
  fun _ => ApiOutcome.exn

/-- `WhatsAppChecker.check_number` (src/bot.py:62-86): clean the number,
return `"invalid"` if the cleaned form is falsy, otherwise call the
backend; any exception raised inside is caught and becomes `"error"`. -/
def check_number (api : String → ApiOutcome) (phone_number : String) : String :=
  let clean_phone := clean_phone_number phone_number
  if clean_phone = "" then "invalid"
  else
    match api clean_phone with
    | ApiOutcome.ok s => s
    | ApiOutcome.exn => "error"

/-- One persisted entry of `store.checked_numbers`
(src/bot.py:151-156); field names follow the JSON keys. -/
structure StatusRecord where
  status : String
  last_check : Nat
  next_retry : Option Nat
  attempts : Nat
deriving DecidableEq, Repr

/-- One persisted entry of `store.user_data` (src/bot.py:309-312). -/
structure UserRecord where
  last_check : Nat
  total_checked : Nat
deriving DecidableEq, Repr

/-- The two module-level maps of `DataStore` (src/bot.py:29-32). -/
structure DataStore where
  checked_numbers : List (String × StatusRecord)
  user_data : List (String × UserRecord)
deriving DecidableEq, Repr

/-- A freshly constructed `DataStore()`: both maps empty. -/
def emptyDataStore : DataStore :=
  { checked_numbers := [], user_data := [] }

/-- Python `dict` lookup on an association list. -/
def lookupKey {α : Type} : List (String × α) → String → Option α
  | [], _ => none
  | (k, v) :: rest, q => if k = q then some v else lookupKey rest q

/-- Python `dict` key assignment: replace an existing key in place,
append a fresh key. -/
def insertKey {α : Type} : List (String × α) → String → α → List (String × α)
  | [], q, v => [(q, v)]
  | (k, w) :: rest, q, v =>
    if k = q then (q, v) :: rest else (k, w) :: insertKey rest q v

/-- `store.checked_numbers.get(phone, {}).get('attempts', 0)`
(src/bot.py:155): the stored attempt count of a key, zero when the key
is absent. -/
def attemptsCount (s : DataStore) (p : String) : Nat :=
  match lookupKey s.checked_numbers p with
  | some r => r.attempts
  | none => 0

/-- `WhatsAppChecker.update_status` (src/bot.py:143-160).  The boolean
result records whether the periodic `store.save_to_file()` at line 159
fired, i.e. whether `len(store.checked_numbers) % 10 == 0` held after
the write. -/
def update_status (s : DataStore) (phone status : String) (retry_hours now : Nat) :
    DataStore × Bool :=
  let next_retry : Option Nat :=
    if status = "not_on_whatsapp" then some (now + retry_hours) else none
  let record : StatusRecord :=
    { status := status, last_check := now, next_retry := next_retry,
      attempts := attemptsCount s phone + 1 }
  let cn := insertKey s.checked_numbers phone record
  ({ s with checked_numbers := cn }, cn.length % 10 == 0)

/-- One call of `update_status`, as an event: the arguments of the
call together with the instant at which it ran. -/
structure UpdateEvent where
  phone : String
  status : String
  retry_hours : Nat
  now : Nat
deriving DecidableEq, Repr

/-- Run a sequence of `update_status` calls against a store, keeping
the final store. -/
def applyEvents (s : DataStore) (es : List UpdateEvent) : DataStore :=
  es.foldl (fun acc e => (update_status acc e.phone e.status e.retry_hours e.now).1) s

/-- Run a sequence of `update_status` calls, keeping for each call
whether the periodic save to file fired. -/
def flushFlags : DataStore → List UpdateEvent → List Bool
  | _, [] => []
  | s, e :: es =>
    let r := update_status s e.phone e.status e.retry_hours e.now
    r.2 :: flushFlags r.1 es

/-- How many events of a sequence target a given phone key. -/
def countKey (p : String) (es : List UpdateEvent) : Nat :=
  (es.filter (fun e => e.phone == p)).length

/-- A sequence of `update_status` calls over a list of keys, with a
fixed status and retry configuration. -/
def mkEvents (keys : List String) : List UpdateEvent :=
  keys.map (fun k => { phone := k, status := "on_whatsapp", retry_hours := 24, now := 0 })

/-- One per-batch result record (src/bot.py:275-284); `next_retry` is
`none` exactly when the source dict lacks the `'next_retry'` key. -/
structure CheckResult where
  phone : String
  status : String
  check_time : Nat
  next_retry : Option Nat
deriving DecidableEq, Repr

/-- Placeholder result used only as the default of `List.getD`. -/
def dummyResult : CheckResult :=
  { phone := "", status := "", check_time := 0, next_retry := none }

/-- The batch loop of `set_retry_and_check` (src/bot.py:265-302):
for each raw input in order, check the number, upsert the store under
the raw number, and append a result record built from the cleaned
number (`clean_phone_number(number) or number`), the status, the
current time, and — only for `not_on_whatsapp` — a retry instant.
`clock i` is the instant at which item `i` is processed. -/
def runBatchAux (api : String → ApiOutcome) (clock : Nat → Nat) (retry_hours : Nat) :
    List String → Nat → DataStore → List CheckResult × DataStore
  | [], _, st => ([], st)
  | number :: rest, i, st =>
    let t := clock i
    let status := check_number api number
    let st' := (update_status st number status retry_hours t).1
    let c := clean_phone_number number
    let clean_num := if c = "" then number else c
    let result : CheckResult :=
      { phone := clean_num, status := status, check_time := t,
        next_retry := if status = "not_on_whatsapp" then some (t + retry_hours) else none }
    let rest' := runBatchAux api clock retry_hours rest (i + 1) st'
    (result :: rest'.1, rest'.2)

/-- One full batch run: the ordered result list and the final store. -/
def runBatch (api : String → ApiOutcome) (clock : Nat → Nat) (retry_hours : Nat)
    (inputs : List String) (st : DataStore) : List CheckResult × DataStore :=
  runBatchAux api clock retry_hours inputs 0 st

/-- The result record the batch loop builds for one input item. -/
def itemResult (api : String → ApiOutcome) (retry_hours t : Nat) (number : String) :
    CheckResult :=
  let status := check_number api number
  let c := clean_phone_number number
  { phone := if c = "" then number else c, status := status, check_time := t,
    next_retry := if status = "not_on_whatsapp" then some (t + retry_hours) else none }

/-- The per-item results of a batch, computed without threading the
store, starting at clock index `i`. -/
def itemResults (api : String → ApiOutcome) (clock : Nat → Nat) (retry_hours : Nat) :
    Nat → List String → List CheckResult
  | _, [] => []
  | i, number :: rest =>
    itemResult api retry_hours (clock i) number ::
      itemResults api clock retry_hours (i + 1) rest

/-- `'next_retry' in r and datetime.strptime(...) > now`
(src/bot.py:497-498): the source predicate of the `retry` filter. -/
def srcRetryPred (now : Nat) (r : CheckResult) : Bool :=
  match r.next_retry with
  | some t => decide (t > now)
  | none => false

/-- `'next_retry' not in r or datetime.strptime(...) > now`
(src/bot.py:504-505): the cooldown side of both combinators. -/
def srcNotExpiredPred (now : Nat) (r : CheckResult) : Bool :=
  match r.next_retry with
  | none => true
  | some t => decide (t > now)

/-- The filter section of `export_results` (src/bot.py:484-513): the
`if/elif` chain over the stored `current_filter` and `combo_filter`
strings, defaulting to the unfiltered result list. -/
def applyFilter (filter_type combo_type : String) (now : Nat)
    (results : List CheckResult) : List CheckResult :=
  if filter_type = "on" then
    results.filter (fun r => r.status == "on_whatsapp")
  else if filter_type = "off" then
    results.filter (fun r => r.status == "not_on_whatsapp")
  else if filter_type = "retry" then
    results.filter (srcRetryPred now)
  else if combo_type ≠ "" then
    if combo_type = "both_and" then
      results.filter (fun r => r.status == "not_on_whatsapp" && srcNotExpiredPred now r)
    else if combo_type = "both_or" then
      results.filter (fun r => r.status == "not_on_whatsapp" || srcNotExpiredPred now r)
    else results
  else results

/-- The dict keys of one result record, in insertion order
(src/bot.py:275-284). -/
def rowKeys (r : CheckResult) : List String :=
  ["phone", "status", "check_time"] ++
    (match r.next_retry with
     | some _ => ["next_retry"]
     | none => [])

/-- The column list `pd.DataFrame(results)` infers from a list of
dicts: the union of the row keys in order of first appearance. -/
def collectCols (rs : List CheckResult) : List String :=
  rs.foldl (fun acc r => acc ++ (rowKeys r).filter (fun k => !acc.contains k)) []

/-- The csv cell of a result under a column name; an absent value
renders as the empty cell. -/
def cellValue (r : CheckResult) (col : String) : String :=
  if col = "phone" then r.phone
  else if col = "status" then r.status
  else if col = "check_time" then toString r.check_time
  else if col = "next_retry" then
    match r.next_retry with
    | some t => toString t
    | none => ""
  else ""

/-- `df.to_csv(..., index=False)` (src/bot.py:527-534) as a table:
a header row followed by one row per result. -/
def exportTable (rs : List CheckResult) : List (List String) :=
  collectCols rs :: rs.map (fun r => (collectCols rs).map (cellValue r))

/-- The logical content of `data.json` once read: each top-level map
may be missing (`dict.get` default applies). -/
structure PersistedDoc where
  checked_numbers : Option (List (String × StatusRecord))
  user_data : Option (List (String × UserRecord))

/-- The state of the storage file at load time: missing (raises
`FileNotFoundError`), or present with either a parsed document or a
parse failure. -/
inductive FileState
  | missing
  | present (parsed : Except Unit PersistedDoc)

/-- `DataStore.load_from_file` (src/bot.py:43-51): only
`FileNotFoundError` is caught (keeping the current maps); a present
file that fails to parse propagates the parse exception; a parsed
document replaces the maps, defaulting absent keys to empty. -/
def load_from_file (s : DataStore) (fs : FileState) : Except Unit DataStore :=
  match fs with
  | FileState.missing => Except.ok s
  | FileState.present (Except.error e) => Except.error e
  | FileState.present (Except.ok doc) =>
      Except.ok { checked_numbers := doc.checked_numbers.getD [],
                  user_data := doc.user_data.getD [] }

/-- Claim-side predicate `On` of C7, written from the claim's words:
status is `OnService`. -/
def specOn (r : CheckResult) : Bool :=
  r.status == "on_whatsapp"

/-- Claim-side predicate `Off` of C7: status is `NotOnService`. -/
def specOff (r : CheckResult) : Bool :=
  r.status == "not_on_whatsapp"

/-- Claim-side predicate `RetryDue` of C7: `nextRetry` is present and
strictly greater than `now`. -/
def specRetryDue (now : Nat) (r : CheckResult) : Bool :=
  r.next_retry.isSome && decide (r.next_retry.getD 0 > now)

/-- Claim-side condition of C7's combinators: `nextRetry` absent or
strictly greater than `now`. -/
def specRetryNotExpired (now : Nat) (r : CheckResult) : Bool :=
  !r.next_retry.isSome || decide (r.next_retry.getD 0 > now)

/-- Claim-side `AND` combinator of C7. -/
def specComboAnd (now : Nat) (r : CheckResult) : Bool :=
  specOff r && specRetryNotExpired now r

/-- Claim-side `OR` combinator of C7. -/
def specComboOr (now : Nat) (r : CheckResult) : Bool :=
  specOff r || specRetryNotExpired now r

/-- A concrete `OnService` result: its dict never receives the
`'next_retry'` key. -/
def rOnExample : CheckResult :=
  { phone := "+2348012345678", status := "on_whatsapp", check_time := 0, next_retry := none }

example : clean_phone_number "08023456789" = "+2348023456789" := by decide
example : clean_phone_number "abc" = "+" := by decide
example : clean_phone_number " +234 801 234 5678 " = "+2348012345678" := by decide
example : check_number stub_api "+2348012345678" = "on_whatsapp" := by decide
example : check_number stub_api "08023456789" = "not_on_whatsapp" := by decide

/-! ### Association-list lemmas -/

theorem lookupKey_insertKey_self {α : Type} (l : List (String × α)) (k : String) (v : α) :
    lookupKey (insertKey l k v) k = some v := by
  induction l with
  | nil => simp [insertKey, lookupKey]
  | cons hd tl ih =>
    obtain ⟨k', w⟩ := hd
    by_cases h : k' = k
    · subst h
      simp [insertKey, lookupKey]
    · simp [insertKey, lookupKey, h, ih]

theorem lookupKey_insertKey_ne {α : Type} (l : List (String × α)) (k q : String) (v : α)
    (h : q ≠ k) : lookupKey (insertKey l k v) q = lookupKey l q := by
  have hkq : ¬ k = q := fun he => h (Eq.symm he)
  induction l with
  | nil => simp [insertKey, lookupKey, hkq]
  | cons hd tl ih =>
    obtain ⟨k', w⟩ := hd
    by_cases hk : k' = k
    · subst hk
      simp [insertKey, lookupKey, hkq]
    · simp [insertKey, lookupKey, hk, ih]

theorem length_insertKey_present {α : Type} (l : List (String × α)) (k : String) (v : α)
    (h : (lookupKey l k).isSome = true) : (insertKey l k v).length = l.length := by
  induction l with
  | nil => simp [lookupKey] at h
  | cons hd tl ih =>
    obtain ⟨k', w⟩ := hd
    by_cases hk : k' = k
    · subst hk
      simp [insertKey]
    · simp only [lookupKey, hk, if_false] at h
      simp [insertKey, hk, ih h]

theorem length_insertKey_absent {α : Type} (l : List (String × α)) (k : String) (v : α)
    (h : lookupKey l k = none) : (insertKey l k v).length = l.length + 1 := by
  induction l with
  | nil => simp [insertKey]
  | cons hd tl ih =>
    obtain ⟨k', w⟩ := hd
    by_cases hk : k' = k
    · subst hk
      simp [lookupKey] at h
    · simp only [lookupKey, hk, if_false] at h
      simp [insertKey, hk, ih h]

theorem lookupKey_insertKey_isSome {α : Type} (l : List (String × α)) (k q : String) (v : α) :
    (lookupKey (insertKey l k v) q).isSome = ((q == k) || (lookupKey l q).isSome) := by
  by_cases h : q = k
  · subst h
    simp [lookupKey_insertKey_self]
  · simp [lookupKey_insertKey_ne l k q v h, h]

/-! ### Normalization lemmas -/

theorem keepChar_not_space (c : Char) (hc : keepChar c = true) : pyIsSpace c = false := by
  cases hps : pyIsSpace c
  · rfl
  · exfalso
    have hsp : c = ' ' ∨ c = '\t' ∨ c = '\n' ∨ c = '\r' ∨ c = '\x0b' ∨ c = '\x0c' := by
      simpa only [pyIsSpace, Bool.or_eq_true, beq_iff_eq, or_assoc] using hps
    rcases hsp with h | h | h | h | h | h <;> subst h <;> exact absurd hc (by decide)

theorem dropWhile_eq_self_of_none (p : Char → Bool) (l : List Char)
    (h : ∀ c ∈ l, p c = false) : l.dropWhile p = l := by
  cases l with
  | nil => rfl
  | cons a l => simp [List.dropWhile, h a (by simp)]

theorem pyStrip_eq_self_of_keep (l : List Char) (h : ∀ c ∈ l, keepChar c = true) :
    pyStrip l = l := by
  have hns : ∀ c ∈ l, pyIsSpace c = false := fun c hc => keepChar_not_space c (h c hc)
  have h1 : l.dropWhile pyIsSpace = l := dropWhile_eq_self_of_none _ _ hns
  have h2 : l.reverse.dropWhile pyIsSpace = l.reverse :=
    dropWhile_eq_self_of_none _ _ (fun c hc => hns c (List.mem_reverse.mp hc))
  simp [pyStrip, h1, h2]

theorem prefixed_head (p : List Char) : ∃ t, prefixed p = '+' :: t := by
  unfold prefixed
  by_cases h0 : p.take 1 = ['0']
  · exact ⟨'2' :: '3' :: '4' :: p.drop 1, by simp [h0]⟩
  · by_cases h234 : p.take 3 = ['2', '3', '4']
    · exact ⟨p, by simp [h0, h234]⟩
    · by_cases hplus : p.take 1 = ['+']
      · refine ⟨p.tail, ?_⟩
        cases p with
        | nil => simp at hplus
        | cons a q =>
          have ha : a = '+' := by simpa using hplus
          subst ha
          simp [h0, h234]
      · exact ⟨p, by simp [h0, h234, hplus]⟩

theorem cleanChars_head (l : List Char) :
    ∃ t, cleanChars l = '+' :: t ∧ ∀ c ∈ t, keepChar c = true := by
  obtain ⟨t, ht⟩ := prefixed_head (pyStrip l)
  refine ⟨t.filter keepChar, ?_, ?_⟩
  · simp [cleanChars, ht, List.filter_cons, show keepChar '+' = true from by decide]
  · intro c hc
    exact (List.mem_filter.mp hc).2

theorem clean_ne_empty (x : String) : clean_phone_number x ≠ "" := by
  obtain ⟨t, ht, _⟩ := cleanChars_head x.toList
  intro h
  have : cleanChars x.toList = [] := congrArg String.toList h
  rw [ht] at this
  exact List.cons_ne_nil _ _ this

theorem cleanChars_of_canonical (t : List Char) (h : ∀ c ∈ t, keepChar c = true) :
    cleanChars ('+' :: t) = '+' :: t := by
  have hall : ∀ c ∈ '+' :: t, keepChar c = true := by
    intro c hc
    rcases List.mem_cons.mp hc with h1 | h1
    · subst h1; decide
    · exact h c h1
  have hstrip : pyStrip ('+' :: t) = '+' :: t := pyStrip_eq_self_of_keep _ hall
  have hpre : prefixed ('+' :: t) = '+' :: t := by
    unfold prefixed
    have h0 : ('+' :: t).take 1 = ['+'] := by simp
    rw [h0]
    simp
  rw [cleanChars, hstrip, hpre]
  exact List.filter_eq_self.mpr hall

/-! ### Store-update lemmas -/

theorem update_status_checked (s : DataStore) (phone status : String) (retry_hours now : Nat) :
    (update_status s phone status retry_hours now).1.checked_numbers =
      insertKey s.checked_numbers phone
        { status := status, last_check := now,
          next_retry := if status = "not_on_whatsapp" then some (now + retry_hours) else none,
          attempts := attemptsCount s phone + 1 } := rfl

theorem update_status_snd (s : DataStore) (phone status : String) (retry_hours now : Nat) :
    (update_status s phone status retry_hours now).2 =
      ((update_status s phone status retry_hours now).1.checked_numbers.length % 10 == 0) := rfl

theorem attemptsCount_update_self (s : DataStore) (p status : String) (h t : Nat) :
    attemptsCount ((update_status s p status h t).1) p = attemptsCount s p + 1 := by
  simp [attemptsCount, update_status_checked, lookupKey_insertKey_self]

theorem attemptsCount_update_ne (s : DataStore) (p status q : String) (h t : Nat)
    (hne : q ≠ p) :
    attemptsCount ((update_status s p status h t).1) q = attemptsCount s q := by
  simp [attemptsCount, update_status_checked, lookupKey_insertKey_ne _ _ _ _ hne]

theorem applyEvents_cons (s : DataStore) (e : UpdateEvent) (es : List UpdateEvent) :
    applyEvents s (e :: es) =
      applyEvents ((update_status s e.phone e.status e.retry_hours e.now).1) es := rfl

theorem countKey_cons (p : String) (e : UpdateEvent) (es : List UpdateEvent) :
    countKey p (e :: es) = (if e.phone = p then 1 else 0) + countKey p es := by
  by_cases h : e.phone = p
  · simp [countKey, List.filter_cons, h, Nat.add_comm]
  · simp [countKey, List.filter_cons, h]

theorem attempts_applyEvents (es : List UpdateEvent) (s : DataStore) (p : String) :
    attemptsCount (applyEvents s es) p = attemptsCount s p + countKey p es := by
  induction es generalizing s with
  | nil => simp [applyEvents, countKey]
  | cons e es ih =>
    rw [applyEvents_cons, ih, countKey_cons]
    by_cases h : e.phone = p
    · subst h
      rw [attemptsCount_update_self]
      simp
      omega
    · rw [attemptsCount_update_ne _ _ _ _ _ _ (fun he => h he.symm)]
      simp [h]

/-! ### Batch-loop lemmas -/

theorem runBatchAux_results (api : String → ApiOutcome) (clock : Nat → Nat)
    (retry_hours : Nat) (inputs : List String) :
    ∀ (i : Nat) (st : DataStore),
      (runBatchAux api clock retry_hours inputs i st).1 =
        itemResults api clock retry_hours i inputs := by
  induction inputs with
  | nil => intro i st; rfl
  | cons n rest ih =>
    intro i st
    simp [runBatchAux, itemResults, itemResult, ih]

theorem itemResults_length (api : String → ApiOutcome) (clock : Nat → Nat)
    (retry_hours : Nat) (inputs : List String) :
    ∀ i : Nat, (itemResults api clock retry_hours i inputs).length = inputs.length := by
  induction inputs with
  | nil => intro i; rfl
  | cons n rest ih => intro i; simp [itemResults, ih]

theorem itemResults_getD (api : String → ApiOutcome) (clock : Nat → Nat)
    (retry_hours : Nat) (inputs : List String) :
    ∀ (i j : Nat), j < inputs.length →
      (itemResults api clock retry_hours i inputs).getD j dummyResult =
        itemResult api retry_hours (clock (i + j)) (inputs.getD j "") := by
  induction inputs with
  | nil => intro i j hj; simp at hj
  | cons n rest ih =>
    intro i j hj
    cases j with
    | zero => simp [itemResults]
    | succ j =>
      have hj' : j < rest.length := by simpa using hj
      have harg : i + 1 + j = i + (j + 1) := by omega
      simp only [itemResults, List.getD_cons_succ]
      rw [ih (i + 1) j hj', harg]

theorem runBatchAux_store_keys (api : String → ApiOutcome) (clock : Nat → Nat)
    (retry_hours : Nat) (inputs : List String) :
    ∀ (i : Nat) (st : DataStore) (k : String),
      (lookupKey ((runBatchAux api clock retry_hours inputs i st).2.checked_numbers) k).isSome
        = (inputs.contains k || (lookupKey st.checked_numbers k).isSome) := by
  induction inputs with
  | nil => intro i st k; simp [runBatchAux]
  | cons n rest ih =>
    intro i st k
    simp only [runBatchAux]
    rw [ih]
    rw [update_status_checked, lookupKey_insertKey_isSome, List.contains_cons,
      ← Bool.or_assoc, Bool.or_comm (rest.contains k) (k == n)]

/-! ### Flush-policy lemmas -/

theorem flushFlags_mk_cons (s : DataStore) (k : String) (rest : List String) :
    flushFlags s (mkEvents (k :: rest)) =
      (update_status s k "on_whatsapp" 24 0).2 ::
        flushFlags (update_status s k "on_whatsapp" 24 0).1 (mkEvents rest) := rfl

theorem flushFlags_fresh (keys : List String) :
    ∀ s : DataStore, keys.Nodup →
      (∀ k ∈ keys, lookupKey s.checked_numbers k = none) →
      flushFlags s (mkEvents keys) =
        (List.range keys.length).map
          (fun i => (s.checked_numbers.length + (i + 1)) % 10 == 0) := by
  induction keys with
  | nil => intro s _ _; rfl
  | cons k rest ih =>
    intro s hnd hfresh
    have hk : lookupKey s.checked_numbers k = none := hfresh k (by simp)
    have hnotmem : k ∉ rest := (List.nodup_cons.mp hnd).1
    have hrest : rest.Nodup := (List.nodup_cons.mp hnd).2
    have hlen : ((update_status s k "on_whatsapp" 24 0).1.checked_numbers).length =
        s.checked_numbers.length + 1 := by
      rw [update_status_checked]
      exact length_insertKey_absent _ _ _ hk
    have hfresh' : ∀ k' ∈ rest,
        lookupKey ((update_status s k "on_whatsapp" 24 0).1.checked_numbers) k' = none := by
      intro k' hk'
      have hne : k' ≠ k := by
        intro he
        exact hnotmem (he ▸ hk')
      rw [update_status_checked, lookupKey_insertKey_ne _ _ _ _ hne]
      exact hfresh k' (by simp [hk'])
    rw [flushFlags_mk_cons, ih _ hrest hfresh', update_status_snd, hlen,
      List.length_cons, List.range_succ_eq_map, List.map_cons, List.map_map]
    refine congrArg₂ _ (by simp) ?_
    refine List.map_congr_left ?_
    intro a _
    have h2 : s.checked_numbers.length + 1 + (a + 1) = s.checked_numbers.length + (a + 1 + 1) := by
      omega
    simp [Function.comp, h2]

/-! ### Per-item result lemmas -/

theorem check_number_exn (api : String → ApiOutcome) (n : String)
    (h : api (clean_phone_number n) = ApiOutcome.exn) : check_number api n = "error" := by
  have hnz := clean_ne_empty n
  simp [check_number, hnz, h]

theorem itemResult_next_retry (api : String → ApiOutcome) (retry_hours t : Nat) (n : String) :
    (itemResult api retry_hours t n).next_retry =
      (if (itemResult api retry_hours t n).status == "not_on_whatsapp"
       then some ((itemResult api retry_hours t n).check_time + retry_hours) else none) := by
  by_cases h : check_number api n = "not_on_whatsapp" <;> simp [itemResult, h]

theorem itemResults_all_retry (api : String → ApiOutcome) (clock : Nat → Nat)
    (retry_hours : Nat) (inputs : List String) :
    ∀ i : Nat,
      ((itemResults api clock retry_hours i inputs).all (fun r =>
        r.next_retry ==
          (if r.status == "not_on_whatsapp" then some (r.check_time + retry_hours)
           else none))) = true := by
  induction inputs with
  | nil => intro i; rfl
  | cons n rest ih =>
    intro i
    rw [itemResults, List.all_cons, ih, Bool.and_true, ← itemResult_next_retry]
    simp

/-! ### Claim theorems -/

/-- C1: the claim says a raw input whose post-processed form contains no
digits makes `clean_phone_number` return the invalid marker and
`check_number` return `Invalid` without a backend call.  On the code,
`clean_phone_number "abc"` returns the truthy string `"+"`, so the
`if not clean_phone` guard of `check_number` never fires: the stub
backend is invoked on `"+"` and its answer `"not_on_whatsapp"` — not
`"invalid"` — is returned. -/
theorem C1_invalid_guard_dead :
    clean_phone_number "abc" = "+"
    ∧ check_number stub_api "abc" = "not_on_whatsapp"
    ∧ (check_number stub_api "abc" == "invalid") = false := by
  decide

/-- C2 counterexample: the batch loop upserts under the raw input
string, so after checking `"08023456789"` the store key is the raw
spelling, while the normalizer output for that input is
`"+2348023456789"` — a different string.  The claim that every inserted
key is the normalizer output is false. -/
theorem C2_counterexample :
    ((runBatch stub_api (fun _ => 0) 24 ["08023456789"] emptyDataStore).2.checked_numbers.map
        Prod.fst) = ["08023456789"]
    ∧ clean_phone_number "08023456789" = "+2348023456789"
    ∧ (("08023456789" : String) == "+2348023456789") = false := by
  decide

/-- C2 amended: after a batch run, a string is a key of
`checked_numbers` exactly when it was already a key or occurs among the
raw inputs — the upsert key is the raw input string, not the normalizer
output, so distinct raw spellings of one number occupy distinct
entries. -/
theorem C2_amended_store_keys (api : String → ApiOutcome) (clock : Nat → Nat)
    (retry_hours : Nat) (inputs : List String) (st : DataStore) (k : String) :
    (lookupKey ((runBatch api clock retry_hours inputs st).2.checked_numbers) k).isSome
      = (inputs.contains k || (lookupKey st.checked_numbers k).isSome) :=
  runBatchAux_store_keys api clock retry_hours inputs 0 st k

/-- C3: the record written by `update_status` carries
`next_retry = some (now + retry_hours)` exactly when the status is
`not_on_whatsapp` and `none` otherwise, and every `CheckResult` built
by a batch run has `next_retry` present iff its status is
`not_on_whatsapp`, in which case it equals the item's processing time
plus `retry_hours`. -/
theorem C3_retry_invariant (s : DataStore) (phone status : String) (retry_hours now : Nat) :
    lookupKey ((update_status s phone status retry_hours now).1.checked_numbers) phone =
      some { status := status, last_check := now,
             next_retry :=
               if status = "not_on_whatsapp" then some (now + retry_hours) else none,
             attempts := attemptsCount s phone + 1 }
    ∧ (if status = "not_on_whatsapp" then some (now + retry_hours) else none).isSome
        = (status == "not_on_whatsapp")
    ∧ ∀ (api : String → ApiOutcome) (clock : Nat → Nat) (inputs : List String)
        (st : DataStore),
        ((runBatch api clock retry_hours inputs st).1.all (fun r =>
          r.next_retry ==
            (if r.status == "not_on_whatsapp" then some (r.check_time + retry_hours)
             else none))) = true := by
  refine ⟨?_, ?_, ?_⟩
  · rw [update_status_checked]
    exact lookupKey_insertKey_self _ _ _
  · by_cases h : status = "not_on_whatsapp" <;> simp [h]
  · intro api clock inputs st
    rw [runBatch, runBatchAux_results]
    exact itemResults_all_retry api clock retry_hours inputs 0

/-- C4: over any sequence of `update_status` calls, the stored attempt
count of a key grows by exactly the number of calls targeting that key,
never decreases, and — starting from the empty store, where the key is
absent — equals exactly the number of calls for that key. -/
theorem C4_attempts_monotone (es : List UpdateEvent) (s : DataStore) (p : String) :
    attemptsCount (applyEvents s es) p = attemptsCount s p + countKey p es
    ∧ attemptsCount s p ≤ attemptsCount (applyEvents s es) p
    ∧ attemptsCount (applyEvents emptyDataStore es) p = countKey p es := by
  refine ⟨attempts_applyEvents es s p, ?_, ?_⟩
  · rw [attempts_applyEvents]
    omega
  · rw [attempts_applyEvents]
    simp [attemptsCount, emptyDataStore, lookupKey]

/-- C5: `clean_phone_number` is idempotent — applying it to its own
output returns that output unchanged, for every raw string input. -/
theorem C5_normalize_idempotent (x : String) :
    clean_phone_number (clean_phone_number x) = clean_phone_number x := by
  obtain ⟨t, ht, hkeep⟩ := cleanChars_head x.toList
  have h1 : clean_phone_number x = ⟨'+' :: t⟩ := by
    show (⟨cleanChars x.toList⟩ : String) = ⟨'+' :: t⟩
    rw [ht]
  rw [h1]
  show (⟨cleanChars ('+' :: t)⟩ : String) = _
  rw [cleanChars_of_canonical t hkeep]

/-- C6: for a non-empty input list and retry hours in `[1, 168]`, the
batch run yields exactly one result per input item, in input order
(item `j` of the output is built from item `j` of the input), with no
deduplication; an item whose backend call raises gets status `"error"`
and later items are still processed. -/
theorem C6_batch_completeness (api : String → ApiOutcome) (clock : Nat → Nat)
    (retry_hours : Nat) (inputs : List String) (st : DataStore)
    (hlow : 1 ≤ retry_hours) (hhigh : retry_hours ≤ 168) (hne : inputs ≠ []) :
    (runBatch api clock retry_hours inputs st).1.length = inputs.length
    ∧ (∀ j, j < inputs.length →
        (runBatch api clock retry_hours inputs st).1.getD j dummyResult =
          itemResult api retry_hours (clock j) (inputs.getD j ""))
    ∧ (∀ j, j < inputs.length →
        api (clean_phone_number (inputs.getD j "")) = ApiOutcome.exn →
        ((runBatch api clock retry_hours inputs st).1.getD j dummyResult).status
          = "error") := by
  have hres : (runBatch api clock retry_hours inputs st).1 =
      itemResults api clock retry_hours 0 inputs :=
    runBatchAux_results api clock retry_hours inputs 0 st
  refine ⟨?_, ?_, ?_⟩
  · rw [hres, itemResults_length]
  · intro j hj
    rw [hres]
    have hg := itemResults_getD api clock retry_hours inputs 0 j hj
    simpa using hg
  · intro j hj hexn
    rw [hres]
    have hg := itemResults_getD api clock retry_hours inputs 0 j hj
    rw [show (0 : Nat) + j = j from by omega] at hg
    rw [hg]
    exact check_number_exn api _ hexn

/-- C6 witness: a singleton batch against an always-raising backend
still yields one result, with status `"error"`. -/
theorem C6_batch_completeness_witness :
    (runBatch exnApi (fun _ => 0) 24 ["08023456789"] emptyDataStore).1.length
        = (["08023456789"] : List String).length
    ∧ ((runBatch exnApi (fun _ => 0) 24 ["08023456789"] emptyDataStore).1.getD 0
        dummyResult).status = "error" := by
  refine ⟨(C6_batch_completeness exnApi (fun _ => 0) 24 ["08023456789"] emptyDataStore
      (by decide) (by decide) (by decide)).1, ?_⟩
  exact (C6_batch_completeness exnApi (fun _ => 0) 24 ["08023456789"] emptyDataStore
      (by decide) (by decide) (by decide)).2.2 0 (by decide) rfl

/-! ### Filter and export lemmas, claims C7-C10 -/

/-- C7: the filter chain of `export_results` implements exactly the
claim's predicates — `On`, `Off`, `RetryDue` (present and strictly
greater than now), the `AND` and `OR` combinators over
`NotOnService` and `nextRetry absent or greater than now` — as a
`List.filter`, hence preserving order without deduplication, and the
empty spec returns the input unchanged. -/
theorem C7_filter_semantics (now : Nat) (rs : List CheckResult) :
    applyFilter "on" "" now rs = rs.filter specOn
    ∧ applyFilter "off" "" now rs = rs.filter specOff
    ∧ applyFilter "retry" "" now rs = rs.filter (specRetryDue now)
    ∧ applyFilter "combo" "both_and" now rs = rs.filter (specComboAnd now)
    ∧ applyFilter "combo" "both_or" now rs = rs.filter (specComboOr now)
    ∧ applyFilter "" "" now rs = rs
    ∧ ∀ ft ct : String, (applyFilter ft ct now rs).Sublist rs := by
  refine ⟨rfl, rfl, ?_, ?_, ?_, rfl, ?_⟩
  · show rs.filter (srcRetryPred now) = rs.filter (specRetryDue now)
    refine List.filter_congr ?_
    intro r _
    cases h : r.next_retry <;> simp [srcRetryPred, specRetryDue, h]
  · show rs.filter (fun r => r.status == "not_on_whatsapp" && srcNotExpiredPred now r)
        = rs.filter (specComboAnd now)
    refine List.filter_congr ?_
    intro r _
    cases h : r.next_retry <;>
      simp [srcNotExpiredPred, specComboAnd, specOff, specRetryNotExpired, h]
  · show rs.filter (fun r => r.status == "not_on_whatsapp" || srcNotExpiredPred now r)
        = rs.filter (specComboOr now)
    refine List.filter_congr ?_
    intro r _
    cases h : r.next_retry <;>
      simp [srcNotExpiredPred, specComboOr, specOff, specRetryNotExpired, h]
  · intro ft ct
    unfold applyFilter
    repeat' split
    all_goals first
      | exact List.filter_sublist _
      | exact List.Sublist.refl _

/-- C8 counterexample: ten successive `update_status` calls for one and
the same key, starting from the empty store, never fire the periodic
save — the saved-entry count stays at 1, and `1 % 10 ≠ 0` — so the
store is not persisted at least once per 10 upserts. -/
theorem C8_counterexample :
    flushFlags emptyDataStore
        (mkEvents ["a", "a", "a", "a", "a", "a", "a", "a", "a", "a"]) =
      [false, false, false, false, false, false, false, false, false, false]
    ∧ (mkEvents ["a", "a", "a", "a", "a", "a", "a", "a", "a", "a"]).length = 10 := by
  decide

/-- C8 amended: the periodic save fires exactly when the number of
distinct stored keys after the upsert is divisible by 10.  An upsert of
an existing key leaves that count unchanged (so repeated upserts of
known keys can go unflushed indefinitely), while a run of pairwise
distinct fresh keys from the empty store flushes exactly at every 10th
upsert. -/
theorem C8_amended_flush_policy :
    (∀ (s : DataStore) (p status : String) (retry_hours now : Nat),
        (lookupKey s.checked_numbers p).isSome = true →
        (update_status s p status retry_hours now).1.checked_numbers.length
            = s.checked_numbers.length
          ∧ (update_status s p status retry_hours now).2
              = (s.checked_numbers.length % 10 == 0))
    ∧ (∀ keys : List String, keys.Nodup →
        flushFlags emptyDataStore (mkEvents keys) =
          (List.range keys.length).map (fun i => (i + 1) % 10 == 0)) := by
  constructor
  · intro s p status retry_hours now hp
    have hlen : (update_status s p status retry_hours now).1.checked_numbers.length
        = s.checked_numbers.length := by
      rw [update_status_checked]
      exact length_insertKey_present _ _ _ hp
    exact ⟨hlen, by rw [update_status_snd, hlen]⟩
  · intro keys hnd
    have h := flushFlags_fresh keys emptyDataStore hnd (fun k _ => rfl)
    simpa [emptyDataStore] using h

/-- C8 amended witness: a second upsert of an already-stored key keeps
the entry count, and two fresh keys produce the flush pattern of the
amended statement. -/
theorem C8_amended_flush_policy_witness :
    ((update_status (update_status emptyDataStore "a" "x" 24 0).1 "a" "y" 24
          1).1.checked_numbers.length
        = (update_status emptyDataStore "a" "x" 24 0).1.checked_numbers.length)
    ∧ flushFlags emptyDataStore (mkEvents ["a", "b"]) =
        (List.range (["a", "b"] : List String).length).map (fun i => (i + 1) % 10 == 0) := by
  refine ⟨(C8_amended_flush_policy.1 (update_status emptyDataStore "a" "x" 24 0).1 "a" "y" 24 1
      (by decide)).1, C8_amended_flush_policy.2 ["a", "b"] (by decide)⟩

theorem foldl_cols_full (rs : List CheckResult) :
    rs.foldl (fun acc r => acc ++ (rowKeys r).filter (fun k => !acc.contains k))
      ["phone", "status", "check_time", "next_retry"] =
      ["phone", "status", "check_time", "next_retry"] := by
  induction rs with
  | nil => rfl
  | cons r rs ih =>
    rw [List.foldl_cons]
    have hstep : (["phone", "status", "check_time", "next_retry"] : List String) ++
        (rowKeys r).filter (fun k =>
          !(["phone", "status", "check_time", "next_retry"] : List String).contains k) =
        ["phone", "status", "check_time", "next_retry"] := by
      cases h : r.next_retry <;> simp only [rowKeys, h] <;> decide
    rw [hstep, ih]

theorem foldl_cols_base (rs : List CheckResult) :
    rs.foldl (fun acc r => acc ++ (rowKeys r).filter (fun k => !acc.contains k))
      ["phone", "status", "check_time"] =
      (if rs.any (fun r => r.next_retry.isSome) then
        ["phone", "status", "check_time", "next_retry"]
       else ["phone", "status", "check_time"]) := by
  induction rs with
  | nil => rfl
  | cons r rs ih =>
    rw [List.foldl_cons]
    cases h : r.next_retry with
    | none =>
      have hstep : (["phone", "status", "check_time"] : List String) ++
          (rowKeys r).filter (fun k =>
            !(["phone", "status", "check_time"] : List String).contains k) =
          ["phone", "status", "check_time"] := by
        simp only [rowKeys, h]
        decide
      rw [hstep, ih]
      simp [List.any_cons, h]
    | some t =>
      have hstep : (["phone", "status", "check_time"] : List String) ++
          (rowKeys r).filter (fun k =>
            !(["phone", "status", "check_time"] : List String).contains k) =
          ["phone", "status", "check_time", "next_retry"] := by
        simp only [rowKeys, h]
        decide
      rw [hstep, foldl_cols_full]
      simp [List.any_cons, h]

theorem collectCols_eq (rs : List CheckResult) (hne : rs ≠ []) :
    collectCols rs =
      ["phone", "status", "check_time"] ++
        (if rs.any (fun r => r.next_retry.isSome) then ["next_retry"] else []) := by
  cases rs with
  | nil => exact absurd rfl hne
  | cons r rs =>
    rw [collectCols, List.foldl_cons]
    have hstart : ([] : List String) ++
        (rowKeys r).filter (fun k => !([] : List String).contains k) = rowKeys r := by
      simp
    rw [hstart]
    cases h : r.next_retry with
    | none =>
      have hrow : rowKeys r = ["phone", "status", "check_time"] := by
        simp [rowKeys, h]
      rw [hrow, foldl_cols_base]
      cases hany : rs.any (fun r => r.next_retry.isSome) <;>
        simp [List.any_cons, h, hany]
    | some t =>
      have hrow : rowKeys r = ["phone", "status", "check_time", "next_retry"] := by
        simp [rowKeys, h]
      rw [hrow, foldl_cols_full]
      simp [List.any_cons, h]

/-- C9 counterexample: exporting a result list in which no record has
`next_retry` (one `on_whatsapp` result) yields a table whose header has
only the three columns `phone, status, check_time` — the `next_retry`
column is absent, contradicting the claim that it is present in every
export. -/
theorem C9_counterexample :
    collectCols [rOnExample] = ["phone", "status", "check_time"]
    ∧ (collectCols [rOnExample]).contains "next_retry" = false := by
  decide

/-- C9 amended: for a non-empty result list the export has a header row
with columns `phone, status, check_time`, followed by `next_retry` if
and only if at least one result carries it; there is exactly one data
row per result, and a result without `next_retry` renders an empty cell
in that column. -/
theorem C9_amended_export_columns (rs : List CheckResult) (hne : rs ≠ []) :
    collectCols rs =
      ["phone", "status", "check_time"] ++
        (if rs.any (fun r => r.next_retry.isSome) then ["next_retry"] else [])
    ∧ (exportTable rs).length = rs.length + 1
    ∧ ∀ r ∈ rs, r.next_retry = none → cellValue r "next_retry" = "" := by
  refine ⟨collectCols_eq rs hne, ?_, ?_⟩
  · simp [exportTable]
  · intro r _ hr
    simp [cellValue, hr]

/-- C9 amended witness: the singleton `on_whatsapp` export instantiates
the amended statement — a three-column header and an empty retry cell. -/
theorem C9_amended_export_columns_witness :
    collectCols [rOnExample] =
      ["phone", "status", "check_time"] ++
        (if ([rOnExample] : List CheckResult).any (fun r => r.next_retry.isSome) then
          ["next_retry"] else [])
    ∧ cellValue rOnExample "next_retry" = "" := by
  refine ⟨(C9_amended_export_columns [rOnExample] (by decide)).1, ?_⟩
  exact (C9_amended_export_columns [rOnExample] (by decide)).2.2 rOnExample (by decide) rfl

/-- C10: `load_from_file` tolerates exactly a missing storage file
(keeping the current — at startup empty — maps) and propagates the
parse error of a present but unparseable document instead of degrading
to an empty store; a parsed document replaces both maps, defaulting
absent keys to empty. -/
theorem C10_load_error_handling :
    (∀ s : DataStore, load_from_file s FileState.missing = Except.ok s)
    ∧ (∀ (s : DataStore) (e : Unit),
        load_from_file s (FileState.present (Except.error e)) = Except.error e)
    ∧ (∀ (s : DataStore) (doc : PersistedDoc),
        load_from_file s (FileState.present (Except.ok doc)) =
          Except.ok { checked_numbers := doc.checked_numbers.getD [],
                      user_data := doc.user_data.getD [] })
    ∧ emptyDataStore.checked_numbers = [] ∧ emptyDataStore.user_data = [] :=
  ⟨fun _ => rfl, fun _ _ => rfl, fun _ _ => rfl, rfl, rfl⟩
